import Mathlib

/-!
Shallow embedding of the chat pub/sub core of `src/handlers/chat_handler.go`
(package `handlers` of the clovia marketplace).

The Go file keeps a process-wide subscriber map `userStreams : map[int][]chan []byte`
from user id to the list of live SSE delivery channels, and offers:
  * `Stream`      — registers a fresh buffered channel (capacity 32) for the
                    authenticated user and removes exactly that channel on cleanup;
  * `publishToUser` — best-effort non-blocking fan-out of a JSON-serialized event
                    to every channel of one user;
  * `ensureConversation` / `saveMessage` / `getConversationParticipants` — the
    persistence helpers over the `conversations` and `messages` tables;
  * `SendMessage`, `Typing`, `GetMessages` — the command handlers.

Channels are modelled by an identity (`cid`, standing for Go's pointer identity)
together with their queued payload buffer; the subscriber map is a function from
user id to the list of channels in registration order; the relational store is a
record of the two tables plus the auto-increment counters and the clock that the
database would use for `created_at`.  `json.Marshal` of the event struct is
modelled by a concrete JSON rendering (`serializeEvent`).
-/

namespace Clovia

/-- One delivery channel: `cid` is the channel's identity (Go compares channels
by reference in the cleanup loop of `Stream`), `buf` the queued payloads of the
buffered channel, in FIFO order. -/
structure Channel where
  cid : Nat
  buf : List String
deriving DecidableEq

/-- The subscriber map `userStreams.m : map[int][]chan []byte`; a missing key
reads as the empty list, exactly as a Go map of slices does. -/
def SubMap : Type := Int → List Channel

/-- Payload of an `sseEvent`: Go stores `interface{}` data; the three shapes
actually published are the `message`, `typing` and `notification` maps. -/
inductive EventData where
  | message (id conversationId senderId : Int) (content : String) (createdAt : Int)
  | typing (conversationId userId : Int)
  | notice (text : String)
deriving DecidableEq

/-- The event struct serialized onto the SSE stream: `{type, data}`. -/
structure sseEvent where
  type : String
  data : EventData
deriving DecidableEq

/-- JSON string escaping for the two characters that matter. -/
def escapeChar (c : Char) : String :=
  if c = '"' then "\\\"" else if c = '\\' then "\\\\" else String.singleton c

/-- Escape a string for inclusion in a JSON literal. -/
def escapeString (s : String) : String :=
  String.join (s.data.map escapeChar)

/-- Rendering of the `Data` field, mirroring `json.Marshal` on the
`fiber.Map` literals built in `SendMessage`, `Typing` and
`publishNotification`. -/
def serializeData : EventData → String
  | .message id conversationId senderId content createdAt =>
      "\x7b\"id\":" ++ toString id ++
      ",\"conversation_id\":" ++ toString conversationId ++
      ",\"sender_id\":" ++ toString senderId ++
      ",\"content\":\"" ++ escapeString content ++
      "\",\"created_at\":" ++ toString createdAt ++ "\x7d"
  | .typing conversationId userId =>
      "\x7b\"conversation_id\":" ++ toString conversationId ++
      ",\"user_id\":" ++ toString userId ++ "\x7d"
  | .notice text =>
      "\x7b\"message\":\"" ++ escapeString text ++ "\"\x7d"

/-- Rendering of the whole event, mirroring `json.Marshal(evt)` on `sseEvent`. -/
def serializeEvent (e : sseEvent) : String :=
  "\x7b\"type\":\"" ++ e.type ++ "\",\"data\":" ++ serializeData e.data ++ "\x7d"

/-- Capacity of each delivery channel: `make(chan []byte, 32)`. -/
def chanCap : Nat := 32

/-- Non-blocking send of `select \x7b case ch <- payload: default: \x7d`:
the payload is enqueued when the buffer has room and silently dropped when the
buffer is full. -/
def trySend (c : Channel) (payload : String) : Channel :=
  if c.buf.length < chanCap then { c with buf := c.buf ++ [payload] } else c

/-- Registration performed by `Stream` (line 56): append the fresh channel to
the user's slice. -/
def register (userID : Int) (ch : Channel) (m : SubMap) : SubMap :=
  fun u => if u = userID then m userID ++ [ch] else m u

/-- The cleanup loop of `Stream` (lines 62-68): remove the first channel with
the given identity, then `break`; channels further down the slice are kept. -/
def removeFirstChan : List Channel → Nat → List Channel
  | [], _ => []
  | c :: rest, cid => if c.cid = cid then rest else c :: removeFirstChan rest cid

/-- Deregistration performed by the deferred cleanup of `Stream`. -/
def deregister (userID : Int) (cid : Nat) (m : SubMap) : SubMap :=
  fun u => if u = userID then removeFirstChan (m userID) cid else m u

/-- `publishToUser` (lines 89-103): snapshot the user's channel slice, return
immediately when it is empty, otherwise serialize the event once and attempt a
non-blocking send to every channel. -/
def publishToUser (userID : Int) (evt : sseEvent) (m : SubMap) : SubMap :=
  let subs := m userID
  if subs.length = 0 then m
  else
    let payload := serializeEvent evt
    fun u => if u = userID then subs.map (fun c => trySend c payload) else m u

/-- A row of the `conversations` table. -/
structure Conversation where
  id : Int
  productId : Int
  buyerId : Int
  sellerId : Int
deriving DecidableEq

/-- A row of the `messages` table. -/
structure Message where
  id : Int
  conversationId : Int
  senderId : Int
  content : String
  createdAt : Int
deriving DecidableEq

/-- The relational store: the two tables in insertion order, the
auto-increment counters, and the clock stamped into `created_at`. -/
structure Store where
  conversations : List Conversation
  messages : List Message
  nextConvId : Int
  nextMsgId : Int
  now : Int
deriving DecidableEq

/-- The error outcomes a handler can return (`fiber.ErrUnauthorized`,
`fiber.ErrBadRequest`, `fiber.ErrNotFound`, `fiber.ErrForbidden`, and the 500
envelope for store failures). -/
inductive ChatError where
  | unauthorized
  | badRequest
  | notFound
  | forbidden
  | internal
deriving DecidableEq

/-- `SELECT id FROM conversations WHERE product_id = ? AND buyer_id = ? AND
seller_id = ?` — the first matching row. -/
def findConversation (s : Store) (productID buyerID sellerID : Int) : Option Conversation :=
  s.conversations.find? fun c =>
    c.productId = productID ∧ c.buyerId = buyerID ∧ c.sellerId = sellerID

/-- `ensureConversation` (lines 178-190): return the existing row's id, else
insert a fresh row and return its auto-increment id. -/
def ensureConversation (s : Store) (productID buyerID sellerID : Int) : Int × Store :=
  match findConversation s productID buyerID sellerID with
  | some c => (c.id, s)
  | none =>
      let row : Conversation := ⟨s.nextConvId, productID, buyerID, sellerID⟩
      (s.nextConvId,
       { s with conversations := s.conversations ++ [row], nextConvId := s.nextConvId + 1 })

/-- `saveMessage` (lines 192-201): insert the row, then read back its
`created_at` (the database clock).  Returns (id, createdAt, new store). -/
def saveMessage (s : Store) (conversationID senderID : Int) (content : String) :
    Int × Int × Store :=
  let id := s.nextMsgId
  let row : Message := ⟨id, conversationID, senderID, content, s.now⟩
  (id, s.now, { s with messages := s.messages ++ [row], nextMsgId := id + 1 })

/-- `getConversationParticipants` (lines 203-209): `[buyer, seller]` of the
conversation, or the empty list when the row is absent. -/
def getConversationParticipants (s : Store) (conversationID : Int) : List Int :=
  match s.conversations.find? (fun c => c.id = conversationID) with
  | none => []
  | some c => [c.buyerId, c.sellerId]

/-- `SendMessage` (lines 124-155): authentication, validation, persistence,
then a `message` event published to every participant.  The parsed request body
is the pair (conversationID, content); `auth` is the identity from
`GetUserIDFromContext`.  Returns the response together with the store and
subscriber map after the call. -/
def SendMessage (st : Store) (bus : SubMap) (auth : Option Int)
    (conversationID : Int) (content : String) :
    Except ChatError Unit × Store × SubMap :=
  match auth with
  | none => (.error .unauthorized, st, bus)
  | some userID =>
    if conversationID = 0 ∨ content = "" then (.error .badRequest, st, bus)
    else
      let r := saveMessage st conversationID userID content
      let msgID := r.1
      let createdAt := r.2.1
      let st1 := r.2.2
      let participants := getConversationParticipants st1 conversationID
      let evt : sseEvent := ⟨"message", .message msgID conversationID userID content createdAt⟩
      let bus1 := participants.foldl (fun b pid => publishToUser pid evt b) bus
      (.ok (), st1, bus1)

/-- `Typing` (lines 158-176): publish a `typing` event to every participant of
the conversation except the caller.  The store is only read. -/
def Typing (st : Store) (bus : SubMap) (auth : Option Int) (conversationID : Int) :
    Except ChatError Unit × SubMap :=
  match auth with
  | none => (.error .unauthorized, bus)
  | some userID =>
    let participants := getConversationParticipants st conversationID
    let evt : sseEvent := ⟨"typing", .typing conversationID userID⟩
    let bus1 := participants.foldl
      (fun b pid => if pid = userID then b else publishToUser pid evt b) bus
    (.ok (), bus1)

/-- Stable insertion into a list sorted by `created_at` ascending. -/
def insertByCreated (m : Message) : List Message → List Message
  | [] => [m]
  | x :: xs => if m.createdAt < x.createdAt then m :: x :: xs else x :: insertByCreated m xs

/-- `ORDER BY created_at ASC` on a list of message rows. -/
def sortByCreated : List Message → List Message
  | [] => []
  | x :: xs => insertByCreated x (sortByCreated xs)

/-- `GetMessages` (lines 232-259): not-found when the conversation row is
absent, forbidden when the requester is neither buyer nor seller, otherwise the
conversation's messages ordered by `created_at`. -/
def GetMessages (st : Store) (auth : Option Int) (conversationID : Int) :
    Except ChatError (List Message) :=
  match auth with
  | none => .error .unauthorized
  | some userID =>
    match st.conversations.find? (fun c => c.id = conversationID) with
    | none => .error .notFound
    | some conv =>
      if userID ≠ conv.buyerId ∧ userID ≠ conv.sellerId then .error .forbidden
      else .ok (sortByCreated (st.messages.filter (fun m => m.conversationId = conversationID)))

/-- The subscriber map at service start: no registrations. -/
def emptyBus : SubMap := fun _ => []

/-- One register or deregister step on the subscriber map, as performed by a
`Stream` connection for one user: registrations install a fresh channel (empty
buffer), deregistrations remove by channel identity. -/
inductive BusOp where
  | reg (cid : Nat)
  | dereg (cid : Nat)
deriving DecidableEq

/-- Apply one `BusOp` for the given user via the embedded `register` and
`deregister` of `Stream`. -/
def applyOp (userID : Int) (m : SubMap) : BusOp → SubMap
  | .reg cid => register userID ⟨cid, []⟩ m
  | .dereg cid => deregister userID cid m

/-- Apply a whole sequence of register/deregister steps for one user. -/
def applyOps (userID : Int) (ops : List BusOp) (m : SubMap) : SubMap :=
  ops.foldl (applyOp userID) m

/-- The channel identities registered by a sequence, in order. -/
def regIds : List BusOp → List Nat
  | [] => []
  | .reg cid :: rest => cid :: regIds rest
  | .dereg _ :: rest => regIds rest

/-- Net effect of one step on the *set* of active channel identities: this is
the specification side of claim C1, a pure set semantics. -/
def activeStep (s : Finset Nat) : BusOp → Finset Nat
  | .reg cid => insert cid s
  | .dereg cid => s.erase cid

/-- Net effect of a sequence of steps on the set of active channel
identities, starting from no registrations. -/
def activeSet (ops : List BusOp) : Finset Nat :=
  ops.foldl activeStep ∅

/-- One `BusOp` step on a single user's channel slice (the slice-level view of
`applyOp`: registration appends a fresh channel, deregistration removes the
first channel with the given identity). -/
def applyOpSlice (l : List Channel) : BusOp → List Channel
  | .reg cid => l ++ [⟨cid, []⟩]
  | .dereg cid => removeFirstChan l cid

/-- The data-model invariant of section 3 of the spec: at most one
`conversations` row per (product, buyer, seller) triple. -/
def uniquePerTriple (s : Store) : Prop :=
  s.conversations.Pairwise fun c1 c2 =>
    ¬(c1.productId = c2.productId ∧ c1.buyerId = c2.buyerId ∧ c1.sellerId = c2.sellerId)

/-! ## Helper lemmas about `publishToUser` -/

theorem trySend_eq (c : Channel) (p : String) :
    trySend c p = if c.buf.length < chanCap then { c with buf := c.buf ++ [p] } else c := rfl

theorem publishToUser_apply (userID : Int) (evt : sseEvent) (m : SubMap) (u : Int) :
    publishToUser userID evt m u =
      if u = userID then (m userID).map (fun c => trySend c (serializeEvent evt)) else m u := by
  unfold publishToUser
  by_cases h0 : (m userID).length = 0
  · have hnil : m userID = [] := List.length_eq_zero.mp h0
    simp only [h0, if_true]
    split
    · next h => rw [h, hnil]; simp
    · rfl
  · simp only [h0, if_false]

theorem publishToUser_other (userID : Int) (evt : sseEvent) (m : SubMap) (u : Int)
    (h : u ≠ userID) : publishToUser userID evt m u = m u := by
  rw [publishToUser_apply]; simp [h]

theorem publishToUser_self (userID : Int) (evt : sseEvent) (m : SubMap) :
    publishToUser userID evt m userID =
      (m userID).map (fun c => trySend c (serializeEvent evt)) := by
  rw [publishToUser_apply]; simp

/-! ## Helper lemmas about `find?` and `ensureConversation` -/

theorem find?_append_of_none {α : Type} (p : α → Bool) (l1 l2 : List α)
    (h : l1.find? p = none) : (l1 ++ l2).find? p = l2.find? p := by
  induction l1 with
  | nil => simp
  | cons a t ih =>
    rw [List.find?_eq_none] at h
    have ha : ¬ p a = true := h a (by simp)
    rw [List.cons_append, List.find?_cons_of_neg _ ha]
    exact ih (by rw [List.find?_eq_none]; intro x hx; exact h x (by simp [hx]))

theorem ensureConversation_of_found (s : Store) (productID buyerID sellerID : Int)
    (c : Conversation) (h : findConversation s productID buyerID sellerID = some c) :
    ensureConversation s productID buyerID sellerID = (c.id, s) := by
  unfold ensureConversation
  rw [h]

theorem ensureConversation_of_missing (s : Store) (productID buyerID sellerID : Int)
    (h : findConversation s productID buyerID sellerID = none) :
    ensureConversation s productID buyerID sellerID =
      (s.nextConvId,
       { s with
          conversations := s.conversations ++ [⟨s.nextConvId, productID, buyerID, sellerID⟩],
          nextConvId := s.nextConvId + 1 }) := by
  unfold ensureConversation
  rw [h]

theorem findConversation_after (st : Store) (productID buyerID sellerID : Int) :
    ∃ c : Conversation,
      findConversation (ensureConversation st productID buyerID sellerID).2
          productID buyerID sellerID = some c ∧
      c.id = (ensureConversation st productID buyerID sellerID).1 := by
  cases hfind : findConversation st productID buyerID sellerID with
  | some c =>
    rw [ensureConversation_of_found st productID buyerID sellerID c hfind]
    exact ⟨c, hfind, rfl⟩
  | none =>
    rw [ensureConversation_of_missing st productID buyerID sellerID hfind]
    refine ⟨⟨st.nextConvId, productID, buyerID, sellerID⟩, ?_, rfl⟩
    unfold findConversation at hfind ⊢
    dsimp only
    rw [find?_append_of_none _ _ _ hfind]
    have hrow :
        (fun c : Conversation =>
          decide (c.productId = productID ∧ c.buyerId = buyerID ∧ c.sellerId = sellerID))
            ⟨st.nextConvId, productID, buyerID, sellerID⟩ = true := by simp
    exact List.find?_cons_of_pos [] hrow

theorem ensureConversation_second (st : Store) (productID buyerID sellerID : Int) :
    ensureConversation (ensureConversation st productID buyerID sellerID).2
        productID buyerID sellerID =
      ((ensureConversation st productID buyerID sellerID).1,
       (ensureConversation st productID buyerID sellerID).2) := by
  obtain ⟨c, hc, hid⟩ := findConversation_after st productID buyerID sellerID
  rw [ensureConversation_of_found _ productID buyerID sellerID c hc, hid]

theorem uniquePerTriple_preserved (st : Store) (productID buyerID sellerID : Int)
    (h : uniquePerTriple st) :
    uniquePerTriple (ensureConversation st productID buyerID sellerID).2 := by
  cases hfind : findConversation st productID buyerID sellerID with
  | some c =>
    rw [ensureConversation_of_found st productID buyerID sellerID c hfind]
    exact h
  | none =>
    rw [ensureConversation_of_missing st productID buyerID sellerID hfind]
    unfold uniquePerTriple at h ⊢
    dsimp only
    rw [List.pairwise_append]
    refine ⟨h, by simp, ?_⟩
    intro a ha x hx
    unfold findConversation at hfind
    rw [List.find?_eq_none] at hfind
    have hna := hfind a ha
    simp only [List.mem_singleton] at hx
    subst hx
    simpa using hna

/-! ## Claim theorems -/

/-- Claim C5: `ensureConversation` is idempotent on the (product, buyer,
seller) triple — a second invocation with the same triple returns the same
conversation id and leaves the store untouched — and lookup-before-insert
preserves the invariant that at most one conversation row exists per triple. -/
theorem ensureConversation_idempotent (st : Store) (productID buyerID sellerID : Int) :
    (ensureConversation (ensureConversation st productID buyerID sellerID).2
        productID buyerID sellerID =
      ((ensureConversation st productID buyerID sellerID).1,
       (ensureConversation st productID buyerID sellerID).2)) ∧
    (uniquePerTriple st →
      uniquePerTriple (ensureConversation st productID buyerID sellerID).2) :=
  ⟨ensureConversation_second st productID buyerID sellerID,
   fun h => uniquePerTriple_preserved st productID buyerID sellerID h⟩

/-- Witness for C5 at the spec's own example: product 5, buyer 1, seller 2 on
an initially empty store. -/
theorem ensureConversation_idempotent_witness :
    uniquePerTriple ⟨[], [], 1, 1, 0⟩ ∧
    (ensureConversation (ensureConversation ⟨[], [], 1, 1, 0⟩ 5 1 2).2 5 1 2 =
      ((ensureConversation ⟨[], [], 1, 1, 0⟩ 5 1 2).1,
       (ensureConversation ⟨[], [], 1, 1, 0⟩ 5 1 2).2)) ∧
    uniquePerTriple (ensureConversation ⟨[], [], 1, 1, 0⟩ 5 1 2).2 :=
  ⟨List.Pairwise.nil,
   (ensureConversation_idempotent ⟨[], [], 1, 1, 0⟩ 5 1 2).1,
   (ensureConversation_idempotent ⟨[], [], 1, 1, 0⟩ 5 1 2).2 List.Pairwise.nil⟩

/-- Claim C2: `publishToUser` is total (never blocks, never returns an error):
every other user's entry is untouched, the target user's channels each undergo
exactly one non-blocking send attempt of the serialized event, and a send
appends the payload when the buffer has room and leaves the channel unchanged
when the buffer is full — silently, with no error surfaced and no effect on the
other channels. -/
theorem publishToUser_best_effort (m : SubMap) (userID : Int) (evt : sseEvent) :
    (∀ u, publishToUser userID evt m u =
        if u = userID then (m userID).map (fun c => trySend c (serializeEvent evt)) else m u) ∧
    (∀ c p, trySend c p =
        if c.buf.length < chanCap then { c with buf := c.buf ++ [p] } else c) :=
  ⟨fun u => publishToUser_apply userID evt m u, fun c p => trySend_eq c p⟩

/-- Claim C9: publishing to a user with zero registered channels is a complete
no-op: the subscriber map is returned unchanged, so no channel receives
anything and no delivery is performed (the code returns right after the map
lookup). -/
theorem publishToUser_no_subscribers (m : SubMap) (userID : Int) (evt : sseEvent)
    (h : m userID = []) : publishToUser userID evt m = m := by
  unfold publishToUser
  simp [h]

/-- Witness for C9 at a concrete input: the empty bus has no channels for user
7, and publishing there returns the bus unchanged. -/
theorem publishToUser_no_subscribers_witness :
    emptyBus 7 = [] ∧
    publishToUser 7 ⟨"typing", .typing 1 2⟩ emptyBus = emptyBus :=
  ⟨rfl, publishToUser_no_subscribers emptyBus 7 ⟨"typing", .typing 1 2⟩ rfl⟩

/-- Claim C6: an authenticated `SendMessage` whose content is empty or whose
conversation id is zero (the parse result of a missing field) returns a
validation failure and leaves both the store and the subscriber map exactly as
they were: nothing is persisted and nothing is published. -/
theorem SendMessage_empty_content (st : Store) (bus : SubMap)
    (userID conversationID : Int) (content : String)
    (h : conversationID = 0 ∨ content = "") :
    SendMessage st bus (some userID) conversationID content = (.error .badRequest, st, bus) := by
  unfold SendMessage
  dsimp only
  rw [if_pos h]

/-- Witness for C6 at a concrete input: empty content on conversation 1. -/
theorem SendMessage_empty_content_witness :
    ((1 : Int) = 0 ∨ ("" : String) = "") ∧
    SendMessage ⟨[], [], 1, 1, 0⟩ emptyBus (some 1) 1 "" =
      (.error .badRequest, ⟨[], [], 1, 1, 0⟩, emptyBus) :=
  ⟨Or.inr rfl, SendMessage_empty_content ⟨[], [], 1, 1, 0⟩ emptyBus 1 1 "" (Or.inr rfl)⟩

/-- Claim C10: an authenticated `Typing` call whose conversation id matches no
stored conversation still returns success, and publishes nothing: the
participant set resolves to the empty list, so the subscriber map is returned
unchanged (the store is never written by `Typing` at all). -/
theorem Typing_unknown_conversation (st : Store) (bus : SubMap)
    (userID conversationID : Int)
    (h : st.conversations.find? (fun c => c.id = conversationID) = none) :
    Typing st bus (some userID) conversationID = (.ok (), bus) := by
  unfold Typing getConversationParticipants
  rw [h]
  rfl

/-- Witness for C10 at a concrete input: an empty store has no conversation 5. -/
theorem Typing_unknown_conversation_witness :
    (Store.conversations ⟨[], [], 1, 1, 0⟩).find? (fun c => c.id = 5) = none ∧
    Typing ⟨[], [], 1, 1, 0⟩ emptyBus (some 3) 5 = (.ok (), emptyBus) :=
  ⟨rfl, Typing_unknown_conversation ⟨[], [], 1, 1, 0⟩ emptyBus 3 5 rfl⟩

/-- Claim C7: authenticated `GetMessages` returns not-found when the
conversation row is absent, and forbidden when the requester is neither the
buyer nor the seller; in both cases the result is a bare error value, which
carries no message content. -/
theorem GetMessages_access_control (st : Store) (userID conversationID : Int) :
    (st.conversations.find? (fun c => c.id = conversationID) = none →
      GetMessages st (some userID) conversationID = .error .notFound) ∧
    (∀ conv, st.conversations.find? (fun c => c.id = conversationID) = some conv →
      userID ≠ conv.buyerId → userID ≠ conv.sellerId →
      GetMessages st (some userID) conversationID = .error .forbidden) := by
  constructor
  · intro h
    unfold GetMessages
    rw [h]
  · intro conv h h1 h2
    unfold GetMessages
    rw [h]
    dsimp only
    rw [if_pos ⟨h1, h2⟩]

/-- Witness for C7 at concrete inputs: user 3 asking for conversation 1 gets
not-found on an empty store, and forbidden on a store whose conversation 1 has
buyer 1 and seller 2. -/
theorem GetMessages_access_control_witness :
    GetMessages ⟨[], [], 1, 1, 0⟩ (some 3) 1 = .error .notFound ∧
    GetMessages ⟨[⟨1, 5, 1, 2⟩], [], 2, 1, 0⟩ (some 3) 1 = .error .forbidden :=
  ⟨(GetMessages_access_control ⟨[], [], 1, 1, 0⟩ 3 1).1 rfl,
   (GetMessages_access_control ⟨[⟨1, 5, 1, 2⟩], [], 2, 1, 0⟩ 3 1).2
     ⟨1, 5, 1, 2⟩ (by decide) (by decide) (by decide)⟩

/-! ## Register/deregister bookkeeping for claim C1 -/

theorem map_cid_removeFirstChan (l : List Channel) (cid : Nat) :
    (removeFirstChan l cid).map Channel.cid = (l.map Channel.cid).erase cid := by
  induction l with
  | nil => rfl
  | cons c rest ih =>
    unfold removeFirstChan
    by_cases h : c.cid = cid
    · simp [h, List.erase_cons]
    · simp [h, List.erase_cons, ih]

theorem removeFirstChan_not_mem (l : List Channel) (cid : Nat)
    (h : cid ∉ l.map Channel.cid) : removeFirstChan l cid = l := by
  induction l with
  | nil => rfl
  | cons c rest ih =>
    simp only [List.map_cons, List.mem_cons, not_or] at h
    unfold removeFirstChan
    rw [if_neg (fun hc => h.1 hc.symm), ih h.2]

theorem applyOp_apply_self (userID : Int) (m : SubMap) (op : BusOp) :
    applyOp userID m op userID = applyOpSlice (m userID) op := by
  cases op with
  | reg cid =>
    unfold applyOp register applyOpSlice
    simp
  | dereg cid =>
    unfold applyOp deregister applyOpSlice
    simp

theorem applyOps_apply_self (userID : Int) (ops : List BusOp) (m : SubMap) :
    applyOps userID ops m userID = ops.foldl applyOpSlice (m userID) := by
  induction ops generalizing m with
  | nil => rfl
  | cons op rest ih =>
    unfold applyOps at ih ⊢
    rw [List.foldl_cons, List.foldl_cons, ih (applyOp userID m op), applyOp_apply_self]

theorem applyOpSlice_fold_invariant (ops : List BusOp) (l : List Channel)
    (hnd : (l.map Channel.cid).Nodup)
    (hregs : (regIds ops).Nodup)
    (hdisj : ∀ cid ∈ regIds ops, cid ∉ l.map Channel.cid) :
    ((ops.foldl applyOpSlice l).map Channel.cid).Nodup ∧
    ((ops.foldl applyOpSlice l).map Channel.cid).toFinset =
      ops.foldl activeStep (l.map Channel.cid).toFinset := by
  induction ops generalizing l with
  | nil => exact ⟨hnd, rfl⟩
  | cons op rest ih =>
    cases op with
    | reg cid =>
      rw [List.foldl_cons, List.foldl_cons]
      dsimp only [applyOpSlice, activeStep]
      have hcid : cid ∉ l.map Channel.cid := hdisj cid (by simp [regIds])
      have hmap : ((l ++ [(⟨cid, []⟩ : Channel)]).map Channel.cid) =
          l.map Channel.cid ++ [cid] := by simp
      have hregs' : (cid :: regIds rest).Nodup := by simpa [regIds] using hregs
      have hnd' : ((l ++ [(⟨cid, []⟩ : Channel)]).map Channel.cid).Nodup := by
        rw [hmap, List.nodup_append]
        refine ⟨hnd, List.nodup_singleton cid, ?_⟩
        intro a ha hb
        simp only [List.mem_singleton] at hb
        subst hb
        exact hcid ha
      have hdisj' : ∀ d ∈ regIds rest, d ∉ (l ++ [(⟨cid, []⟩ : Channel)]).map Channel.cid := by
        intro d hd
        rw [hmap]
        simp only [List.mem_append, List.mem_singleton, not_or]
        refine ⟨hdisj d (by simp [regIds, hd]), ?_⟩
        intro hdc
        subst hdc
        exact (List.nodup_cons.mp hregs').1 hd
      have hih := ih (l ++ [(⟨cid, []⟩ : Channel)]) hnd' (List.nodup_cons.mp hregs').2 hdisj'
      refine ⟨hih.1, ?_⟩
      rw [hih.2, hmap]
      have hfin : (l.map Channel.cid ++ [cid]).toFinset =
          insert cid (l.map Channel.cid).toFinset := by
        ext a
        simp [or_comm]
      rw [hfin]
    | dereg cid =>
      rw [List.foldl_cons, List.foldl_cons]
      dsimp only [applyOpSlice, activeStep]
      have hmap : ((removeFirstChan l cid).map Channel.cid) =
          (l.map Channel.cid).erase cid := map_cid_removeFirstChan l cid
      have hregs' : (regIds rest).Nodup := by simpa [regIds] using hregs
      have hnd' : ((removeFirstChan l cid).map Channel.cid).Nodup := by
        rw [hmap]
        exact hnd.erase cid
      have hdisj' : ∀ d ∈ regIds rest, d ∉ (removeFirstChan l cid).map Channel.cid := by
        intro d hd
        rw [hmap]
        intro hmem
        exact hdisj d (by simp [regIds, hd]) (List.mem_of_mem_erase hmem)
      have hih := ih (removeFirstChan l cid) hnd' hregs' hdisj'
      refine ⟨hih.1, ?_⟩
      rw [hih.2, hmap]
      have hfin : ((l.map Channel.cid).erase cid).toFinset =
          (l.map Channel.cid).toFinset.erase cid := by
        ext a
        simp only [List.mem_toFinset, Finset.mem_erase, hnd.mem_erase_iff]
      rw [hfin]

/-- Claim C1: for every sequence of register/deregister steps on one user's
entry of the subscriber map (starting from no registrations, each registration
installing a fresh channel, as `Stream` does), the active channel set equals
the net effect of the sequence: each registered-but-not-deregistered channel is
present exactly once (the identity list is duplicate-free and its set is the
fold of insert/erase over the sequence), and deregistering a channel that is
no longer present leaves the map unchanged. -/
theorem Stream_register_deregister_net (userID : Int) (ops : List BusOp)
    (hregs : (regIds ops).Nodup) :
    (((applyOps userID ops emptyBus userID).map Channel.cid).Nodup ∧
     ∀ cid, cid ∈ (applyOps userID ops emptyBus userID).map Channel.cid ↔
       cid ∈ activeSet ops) ∧
    (∀ (m : SubMap) (cid : Nat), cid ∉ (m userID).map Channel.cid →
      deregister userID cid m = m) := by
  constructor
  · have base := applyOpSlice_fold_invariant ops [] (by simp) hregs (by simp)
    have heq : applyOps userID ops emptyBus userID = ops.foldl applyOpSlice [] :=
      applyOps_apply_self userID ops emptyBus
    rw [heq]
    refine ⟨base.1, fun cid => ?_⟩
    rw [← List.mem_toFinset, base.2]
    exact Iff.rfl
  · intro m cid h
    funext u
    unfold deregister
    by_cases hu : u = userID
    · subst hu
      rw [if_pos rfl, removeFirstChan_not_mem _ _ h]
    · rw [if_neg hu]

/-- Witness for C1 at a concrete input: register channels 1 and 2 for user 7,
then deregister channel 1 twice (the second deregistration hits an
already-removed channel). -/
theorem Stream_register_deregister_net_witness :
    (regIds [BusOp.reg 1, BusOp.reg 2, BusOp.dereg 1, BusOp.dereg 1]).Nodup ∧
    ((((applyOps 7 [BusOp.reg 1, BusOp.reg 2, BusOp.dereg 1, BusOp.dereg 1]
          emptyBus 7).map Channel.cid).Nodup ∧
      ∀ cid, cid ∈ (applyOps 7 [BusOp.reg 1, BusOp.reg 2, BusOp.dereg 1, BusOp.dereg 1]
          emptyBus 7).map Channel.cid ↔
        cid ∈ activeSet [BusOp.reg 1, BusOp.reg 2, BusOp.dereg 1, BusOp.dereg 1]) ∧
     (∀ (m : SubMap) (cid : Nat), cid ∉ (m 7).map Channel.cid →
       deregister 7 cid m = m)) :=
  ⟨by decide,
   Stream_register_deregister_net 7
     [BusOp.reg 1, BusOp.reg 2, BusOp.dereg 1, BusOp.dereg 1] (by decide)⟩

/-! ## Fan-out to the two participants of a conversation (claims C3, C4, C8) -/

theorem getConversationParticipants_found (s : Store) (conversationID : Int)
    (conv : Conversation)
    (h : s.conversations.find? (fun c => c.id = conversationID) = some conv) :
    getConversationParticipants s conversationID = [conv.buyerId, conv.sellerId] := by
  unfold getConversationParticipants
  rw [h]

theorem publish_two_apply (b s : Int) (evt : sseEvent) (bus : SubMap)
    (hbs : b ≠ s) (u : Int) :
    publishToUser s evt (publishToUser b evt bus) u =
      if u = b then (bus b).map (fun c => trySend c (serializeEvent evt))
      else if u = s then (bus s).map (fun c => trySend c (serializeEvent evt))
      else bus u := by
  rw [publishToUser_apply, publishToUser_apply, publishToUser_apply]
  by_cases hus : u = s <;> by_cases hub : u = b <;> simp_all

theorem SendMessage_success_eq (st : Store) (bus : SubMap) (sender conversationID : Int)
    (content : String) (hid : conversationID ≠ 0) (hc : content ≠ "") :
    SendMessage st bus (some sender) conversationID content =
      (.ok (),
       { st with
          messages := st.messages ++ [⟨st.nextMsgId, conversationID, sender, content, st.now⟩],
          nextMsgId := st.nextMsgId + 1 },
       (getConversationParticipants st conversationID).foldl
         (fun b pid =>
           publishToUser pid
             ⟨"message", .message st.nextMsgId conversationID sender content st.now⟩ b)
         bus) := by
  unfold SendMessage
  dsimp only
  rw [if_neg (by rintro (h | h); exact hid h; exact hc h)]
  rfl

theorem trySend_cid (c : Channel) (p : String) : (trySend c p).cid = c.cid := by
  unfold trySend
  split <;> rfl

theorem trySend_buf_of_room (c : Channel) (p : String) (h : c.buf.length < chanCap) :
    (trySend c p).buf = c.buf ++ [p] := by
  unfold trySend
  rw [if_pos h]

/-- Claim C3: a successful `SendMessage` on an existing conversation between
distinct buyer and seller, sent by a participant, persists exactly one new
message row carrying the fresh id, conversation id, sender id, content and
created-at, and publishes the serialized `message` event to both participants
— the sender included — where every registered channel of a targeted user
whose buffer is not full receives the same serialized payload appended to its
buffer, full buffers being skipped. -/
theorem SendMessage_publishes_to_participants (st : Store) (bus : SubMap)
    (sender conversationID : Int) (content : String) (conv : Conversation)
    (hfind : st.conversations.find? (fun c => c.id = conversationID) = some conv)
    (hid : conversationID ≠ 0) (hc : content ≠ "")
    (hpart : sender = conv.buyerId ∨ sender = conv.sellerId)
    (hbs : conv.buyerId ≠ conv.sellerId) :
    (SendMessage st bus (some sender) conversationID content).1 = .ok () ∧
    (SendMessage st bus (some sender) conversationID content).2.1.messages =
      st.messages ++ [⟨st.nextMsgId, conversationID, sender, content, st.now⟩] ∧
    sender ∈ [conv.buyerId, conv.sellerId] ∧
    (∀ pid ∈ [conv.buyerId, conv.sellerId],
      (SendMessage st bus (some sender) conversationID content).2.2 pid =
        (bus pid).map (fun c => trySend c (serializeEvent
          ⟨"message", .message st.nextMsgId conversationID sender content st.now⟩))) ∧
    (∀ u, u ∉ [conv.buyerId, conv.sellerId] →
      (SendMessage st bus (some sender) conversationID content).2.2 u = bus u) ∧
    (∀ pid ∈ [conv.buyerId, conv.sellerId], ∀ ch ∈ bus pid, ch.buf.length < chanCap →
      ∃ ch', ch' ∈ (SendMessage st bus (some sender) conversationID content).2.2 pid ∧
        ch'.cid = ch.cid ∧
        ch'.buf = ch.buf ++ [serializeEvent
          ⟨"message", .message st.nextMsgId conversationID sender content st.now⟩]) := by
  have hsend := SendMessage_success_eq st bus sender conversationID content hid hc
  have hparts := getConversationParticipants_found st conversationID conv hfind
  have hbus : (SendMessage st bus (some sender) conversationID content).2.2 =
      publishToUser conv.sellerId
        ⟨"message", .message st.nextMsgId conversationID sender content st.now⟩
        (publishToUser conv.buyerId
          ⟨"message", .message st.nextMsgId conversationID sender content st.now⟩ bus) := by
    rw [hsend]
    dsimp only
    rw [hparts]
    rfl
  have hmap : ∀ pid ∈ [conv.buyerId, conv.sellerId],
      (SendMessage st bus (some sender) conversationID content).2.2 pid =
        (bus pid).map (fun c => trySend c (serializeEvent
          ⟨"message", .message st.nextMsgId conversationID sender content st.now⟩)) := by
    intro pid hpid
    rw [hbus, publish_two_apply _ _ _ _ hbs pid]
    simp only [List.mem_cons, List.mem_singleton, List.not_mem_nil, or_false] at hpid
    rcases hpid with h | h
    · subst h
      rw [if_pos rfl]
    · subst h
      rw [if_neg (fun h2 => hbs h2.symm), if_pos rfl]
  refine ⟨by rw [hsend], by rw [hsend], ?_, hmap, ?_, ?_⟩
  · rcases hpart with h | h <;> simp [h]
  · intro u hu
    simp only [List.mem_cons, List.mem_singleton, List.not_mem_nil, or_false, not_or] at hu
    rw [hbus, publish_two_apply _ _ _ _ hbs u, if_neg hu.1, if_neg hu.2]
  · intro pid hpid ch hch hroom
    refine ⟨trySend ch (serializeEvent
      ⟨"message", .message st.nextMsgId conversationID sender content st.now⟩), ?_, ?_, ?_⟩
    · rw [hmap pid hpid]
      exact List.mem_map_of_mem _ hch
    · exact trySend_cid ch _
    · exact trySend_buf_of_room ch _ hroom

/-- Witness for C3 at a concrete input: conversation 1 (product 5, buyer 1,
seller 2), the buyer sends "hi" on an empty bus. -/
theorem SendMessage_publishes_to_participants_witness :
    ((Store.conversations ⟨[⟨1, 5, 1, 2⟩], [], 2, 1, 100⟩).find? (fun c => c.id = 1) =
        some ⟨1, 5, 1, 2⟩ ∧
      (1 : Int) ≠ 0 ∧ ("hi" : String) ≠ "" ∧
      ((1 : Int) = Conversation.buyerId ⟨1, 5, 1, 2⟩ ∨
        (1 : Int) = Conversation.sellerId ⟨1, 5, 1, 2⟩) ∧
      Conversation.buyerId ⟨1, 5, 1, 2⟩ ≠ Conversation.sellerId ⟨1, 5, 1, 2⟩) ∧
    ((SendMessage ⟨[⟨1, 5, 1, 2⟩], [], 2, 1, 100⟩ emptyBus (some 1) 1 "hi").1 = .ok () ∧
     (SendMessage ⟨[⟨1, 5, 1, 2⟩], [], 2, 1, 100⟩ emptyBus (some 1) 1 "hi").2.1.messages =
       (Store.messages ⟨[⟨1, 5, 1, 2⟩], [], 2, 1, 100⟩) ++
         [⟨Store.nextMsgId ⟨[⟨1, 5, 1, 2⟩], [], 2, 1, 100⟩, 1, 1, "hi",
           Store.now ⟨[⟨1, 5, 1, 2⟩], [], 2, 1, 100⟩⟩] ∧
     (1 : Int) ∈ [Conversation.buyerId ⟨1, 5, 1, 2⟩, Conversation.sellerId ⟨1, 5, 1, 2⟩] ∧
     (∀ pid ∈ [Conversation.buyerId ⟨1, 5, 1, 2⟩, Conversation.sellerId ⟨1, 5, 1, 2⟩],
       (SendMessage ⟨[⟨1, 5, 1, 2⟩], [], 2, 1, 100⟩ emptyBus (some 1) 1 "hi").2.2 pid =
         (emptyBus pid).map (fun c => trySend c (serializeEvent
           ⟨"message", .message (Store.nextMsgId ⟨[⟨1, 5, 1, 2⟩], [], 2, 1, 100⟩) 1 1 "hi"
             (Store.now ⟨[⟨1, 5, 1, 2⟩], [], 2, 1, 100⟩)⟩))) ∧
     (∀ u, u ∉ [Conversation.buyerId ⟨1, 5, 1, 2⟩, Conversation.sellerId ⟨1, 5, 1, 2⟩] →
       (SendMessage ⟨[⟨1, 5, 1, 2⟩], [], 2, 1, 100⟩ emptyBus (some 1) 1 "hi").2.2 u =
         emptyBus u) ∧
     (∀ pid ∈ [Conversation.buyerId ⟨1, 5, 1, 2⟩, Conversation.sellerId ⟨1, 5, 1, 2⟩],
       ∀ ch ∈ emptyBus pid, ch.buf.length < chanCap →
       ∃ ch', ch' ∈ (SendMessage ⟨[⟨1, 5, 1, 2⟩], [], 2, 1, 100⟩ emptyBus
           (some 1) 1 "hi").2.2 pid ∧
         ch'.cid = ch.cid ∧
         ch'.buf = ch.buf ++ [serializeEvent
           ⟨"message", .message (Store.nextMsgId ⟨[⟨1, 5, 1, 2⟩], [], 2, 1, 100⟩) 1 1 "hi"
             (Store.now ⟨[⟨1, 5, 1, 2⟩], [], 2, 1, 100⟩)⟩])) :=
  ⟨⟨rfl, by decide, by decide, Or.inl rfl, by decide⟩,
   SendMessage_publishes_to_participants ⟨[⟨1, 5, 1, 2⟩], [], 2, 1, 100⟩ emptyBus 1 1 "hi"
     ⟨1, 5, 1, 2⟩ rfl (by decide) (by decide) (Or.inl rfl) (by decide)⟩

/-- Claim C4: an authenticated `Typing` call on an existing conversation with
distinct buyer and seller succeeds, delivers the serialized `typing` event to
every participant other than the caller, and delivers nothing to the caller:
the caller's own entry of the subscriber map is untouched.  Instantiating the
caller as the buyer, the seller receives the event and the buyer receives
nothing. -/
theorem Typing_excludes_caller (st : Store) (bus : SubMap)
    (sender conversationID : Int) (conv : Conversation)
    (hfind : st.conversations.find? (fun c => c.id = conversationID) = some conv)
    (hbs : conv.buyerId ≠ conv.sellerId) :
    (Typing st bus (some sender) conversationID).1 = .ok () ∧
    (Typing st bus (some sender) conversationID).2 sender = bus sender ∧
    (∀ pid ∈ [conv.buyerId, conv.sellerId], pid ≠ sender →
      (Typing st bus (some sender) conversationID).2 pid =
        (bus pid).map (fun c => trySend c
          (serializeEvent ⟨"typing", .typing conversationID sender⟩))) ∧
    (∀ u, u ∉ [conv.buyerId, conv.sellerId] →
      (Typing st bus (some sender) conversationID).2 u = bus u) := by
  have htyping : Typing st bus (some sender) conversationID =
      (.ok (),
       if conv.sellerId = sender then
         (if conv.buyerId = sender then bus
          else publishToUser conv.buyerId ⟨"typing", .typing conversationID sender⟩ bus)
       else
         publishToUser conv.sellerId ⟨"typing", .typing conversationID sender⟩
           (if conv.buyerId = sender then bus
            else publishToUser conv.buyerId ⟨"typing", .typing conversationID sender⟩ bus)) := by
    unfold Typing
    dsimp only
    rw [getConversationParticipants_found st conversationID conv hfind]
    rfl
  rw [htyping]
  dsimp only
  by_cases hb : conv.buyerId = sender <;> by_cases hs : conv.sellerId = sender
  · exact absurd (hb.trans hs.symm) hbs
  · rw [if_neg hs, if_pos hb]
    refine ⟨rfl, publishToUser_other _ _ _ _ (fun h => hs h.symm), ?_, ?_⟩
    · intro pid hpid hpsender
      simp only [List.mem_cons, List.mem_singleton, List.not_mem_nil, or_false] at hpid
      rcases hpid with h | h
      · exact absurd (h.trans hb) hpsender
      · subst h
        exact publishToUser_self _ _ _
    · intro u hu
      simp only [List.mem_cons, List.mem_singleton, List.not_mem_nil, or_false, not_or] at hu
      exact publishToUser_other _ _ _ _ hu.2
  · rw [if_pos hs, if_neg hb]
    refine ⟨rfl, publishToUser_other _ _ _ _ (fun h => hb h.symm), ?_, ?_⟩
    · intro pid hpid hpsender
      simp only [List.mem_cons, List.mem_singleton, List.not_mem_nil, or_false] at hpid
      rcases hpid with h | h
      · subst h
        exact publishToUser_self _ _ _
      · exact absurd (h.trans hs) hpsender
    · intro u hu
      simp only [List.mem_cons, List.mem_singleton, List.not_mem_nil, or_false, not_or] at hu
      exact publishToUser_other _ _ _ _ hu.1
  · rw [if_neg hs, if_neg hb]
    refine ⟨rfl, ?_, ?_, ?_⟩
    · rw [publish_two_apply _ _ _ _ hbs sender,
        if_neg (fun h => hb h.symm), if_neg (fun h => hs h.symm)]
    · intro pid hpid hpsender
      rw [publish_two_apply _ _ _ _ hbs pid]
      simp only [List.mem_cons, List.mem_singleton, List.not_mem_nil, or_false] at hpid
      rcases hpid with h | h
      · subst h
        rw [if_pos rfl]
      · subst h
        rw [if_neg (fun h2 => hbs h2.symm), if_pos rfl]
    · intro u hu
      simp only [List.mem_cons, List.mem_singleton, List.not_mem_nil, or_false, not_or] at hu
      rw [publish_two_apply _ _ _ _ hbs u, if_neg hu.1, if_neg hu.2]

/-- Witness for C4 at a concrete input: the buyer (user 1) of conversation 1
(product 5, buyer 1, seller 2) triggers typing on an empty bus. -/
theorem Typing_excludes_caller_witness :
    ((Store.conversations ⟨[⟨1, 5, 1, 2⟩], [], 2, 1, 100⟩).find? (fun c => c.id = 1) =
        some ⟨1, 5, 1, 2⟩ ∧
      Conversation.buyerId ⟨1, 5, 1, 2⟩ ≠ Conversation.sellerId ⟨1, 5, 1, 2⟩) ∧
    ((Typing ⟨[⟨1, 5, 1, 2⟩], [], 2, 1, 100⟩ emptyBus (some 1) 1).1 = .ok () ∧
     (Typing ⟨[⟨1, 5, 1, 2⟩], [], 2, 1, 100⟩ emptyBus (some 1) 1).2 1 = emptyBus 1 ∧
     (∀ pid ∈ [Conversation.buyerId ⟨1, 5, 1, 2⟩, Conversation.sellerId ⟨1, 5, 1, 2⟩],
       pid ≠ 1 →
       (Typing ⟨[⟨1, 5, 1, 2⟩], [], 2, 1, 100⟩ emptyBus (some 1) 1).2 pid =
         (emptyBus pid).map (fun c => trySend c
           (serializeEvent ⟨"typing", .typing 1 1⟩))) ∧
     (∀ u, u ∉ [Conversation.buyerId ⟨1, 5, 1, 2⟩, Conversation.sellerId ⟨1, 5, 1, 2⟩] →
       (Typing ⟨[⟨1, 5, 1, 2⟩], [], 2, 1, 100⟩ emptyBus (some 1) 1).2 u = emptyBus u)) :=
  ⟨⟨rfl, by decide⟩,
   Typing_excludes_caller ⟨[⟨1, 5, 1, 2⟩], [], 2, 1, 100⟩ emptyBus 1 1 ⟨1, 5, 1, 2⟩
     rfl (by decide)⟩

/-- Claim C8 fails on the code: `SendMessage` performs no participant check,
so an authenticated user who is neither the buyer nor the seller of a
conversation still gets a message row inserted with their sender id.  Here
user 3 posts "hi" into conversation 1, whose buyer is 1 and seller is 2, and
the row is persisted. -/
theorem SendMessage_nonparticipant_inserts :
    (SendMessage ⟨[⟨1, 5, 1, 2⟩], [], 2, 1, 100⟩ emptyBus (some 3) 1 "hi").1 = .ok () ∧
    (SendMessage ⟨[⟨1, 5, 1, 2⟩], [], 2, 1, 100⟩ emptyBus (some 3) 1 "hi").2.1.messages =
      [⟨1, 1, 3, "hi", 100⟩] ∧
    (3 : Int) ≠ Conversation.buyerId ⟨1, 5, 1, 2⟩ ∧
    (3 : Int) ≠ Conversation.sellerId ⟨1, 5, 1, 2⟩ := by
  refine ⟨rfl, rfl, by decide, by decide⟩

end Clovia
